import Mathlib

/-!
Formal model of the ralph-wiggum task scheduler core: the dependency graph
evaluator (`ralph/dag.py`), the durable JSON store (`ralph/locks.py`) and the
two scheduler loops of `Runner` (`ralph/run.py`).  Python dictionaries holding
tasks are modelled as a `Task` structure; the JSON files the schedulers read
and write are modelled as explicit values threaded through the functions.
-/

namespace Ralph

/-- A task entry of `tasks.json`, as read by `ralph/dag.py` and `ralph/run.py`.
The optional dictionary fields (`blocked`, `attempts`, `max_attempts`,
`dependencies`) are total here; the Python accessors `task.get(key, default)`
fill in the same defaults the data model prescribes. -/
structure Task where
  id : String
  title : String
  description : String
  status : String
  dependencies : List String
  attempts : Nat
  max_attempts : Nat
  blocked : Bool
deriving Repr, DecidableEq

/-- The set comprehension at dag.py line 13:
`completed_ids = {t["id"] for t in tasks if t["status"] == "completed"}`,
kept as a list (only membership is ever queried). -/
def completed_ids (tasks : List Task) : List String :=
  (tasks.filter (fun t => t.status == "completed")).map Task.id

/-- The per-task readiness test of the loop body of `get_ready_tasks`
(dag.py lines 15-23): the three `continue` guards and the dependency check. -/
def ready_check (ids : List String) (task : Task) : Bool :=
  task.status == "pending" &&
  !task.blocked &&
  !(task.max_attempts ≤ task.attempts : Bool) &&
  task.dependencies.all (fun dep => ids.contains dep)

/-- `dag.get_ready_tasks` (dag.py lines 4-24). -/
def get_ready_tasks (tasks : List Task) : List Task :=
  tasks.filter (ready_check (completed_ids tasks))

/-- `dag.all_tasks_complete` (dag.py lines 27-29). -/
def all_tasks_complete (tasks : List Task) : Bool :=
  tasks.all (fun t => t.status == "completed")

/-- The guard of the loop in `dag.any_task_exceeded_max_attempts`
(dag.py line 38). -/
def exhausted_check (task : Task) : Bool :=
  task.status != "completed" && (task.max_attempts ≤ task.attempts : Bool)

/-- `dag.any_task_exceeded_max_attempts` (dag.py lines 32-40). -/
def any_task_exceeded_max_attempts : List Task → Bool × Option Task
  | [] => (false, none)
  | task :: rest =>
    if exhausted_check task then (true, some task)
    else any_task_exceeded_max_attempts rest

/- ### Membership characterisations of the evaluator -/

theorem mem_completed_ids {tasks : List Task} {dep : String} :
    dep ∈ completed_ids tasks ↔
      ∃ u ∈ tasks, u.status = "completed" ∧ u.id = dep := by
  simp only [completed_ids, List.mem_map, List.mem_filter, beq_iff_eq]
  constructor
  · rintro ⟨u, ⟨hu, hs⟩, hid⟩
    exact ⟨u, hu, hs, hid⟩
  · rintro ⟨u, hu, hs, hid⟩
    exact ⟨u, ⟨hu, hs⟩, hid⟩

theorem ready_check_iff {tasks : List Task} {t : Task} :
    ready_check (completed_ids tasks) t = true ↔
      t.status = "pending" ∧ t.blocked = false ∧
      t.attempts < t.max_attempts ∧
      ∀ dep ∈ t.dependencies, ∃ u ∈ tasks, u.status = "completed" ∧ u.id = dep := by
  simp only [ready_check, Bool.and_eq_true, beq_iff_eq, Bool.not_eq_true',
    decide_eq_false_iff_not, not_le, List.all_eq_true, List.contains,
    List.elem_eq_mem, decide_eq_true_eq, mem_completed_ids, Bool.not_eq_true,
    and_assoc]

theorem mem_get_ready_tasks {tasks : List Task} {t : Task} :
    t ∈ get_ready_tasks tasks ↔
      t ∈ tasks ∧ t.status = "pending" ∧ t.blocked = false ∧
      t.attempts < t.max_attempts ∧
      ∀ dep ∈ t.dependencies, ∃ u ∈ tasks, u.status = "completed" ∧ u.id = dep := by
  rw [get_ready_tasks, List.mem_filter, ready_check_iff]

/-- C1: `get_ready_tasks` returns exactly the tasks of the list that are
pending, unblocked, below their attempt budget, and whose dependencies all
name a completed task of the list; no task violating any of these conditions
is ever returned. -/
theorem c1_get_ready_tasks_exact (tasks : List Task) (t : Task) :
    t ∈ get_ready_tasks tasks ↔
      t ∈ tasks ∧ t.status = "pending" ∧ t.blocked = false ∧
      t.attempts < t.max_attempts ∧
      ∀ dep ∈ t.dependencies, ∃ u ∈ tasks, u.status = "completed" ∧ u.id = dep :=
  mem_get_ready_tasks

/-- C9: `all_tasks_complete` is true iff no task has a status other than
`"completed"`; in particular it is true on the empty list. -/
theorem c9_all_tasks_complete_iff (tasks : List Task) :
    (all_tasks_complete tasks = true ↔ ¬ ∃ t ∈ tasks, t.status ≠ "completed") ∧
    all_tasks_complete [] = true := by
  constructor
  · simp [all_tasks_complete, List.all_eq_true]
  · rfl

theorem exhausted_check_iff {t : Task} :
    exhausted_check t = true ↔ t.status ≠ "completed" ∧ t.max_attempts ≤ t.attempts := by
  simp [exhausted_check]

theorem exhausted_check_eq_false {t : Task} :
    exhausted_check t = false ↔ (t.status = "completed" ∨ t.attempts < t.max_attempts) := by
  rw [← Bool.not_eq_true, exhausted_check_iff]
  rw [not_and_or, not_not, not_le]

theorem any_exceeded_none (tasks : List Task)
    (h : ∀ t ∈ tasks, exhausted_check t = false) :
    any_task_exceeded_max_attempts tasks = (false, none) := by
  induction tasks with
  | nil => rfl
  | cons t rest ih =>
    rw [any_task_exceeded_max_attempts, h t (List.mem_cons_self t rest)]
    exact ih fun u hu => h u (List.mem_cons_of_mem t hu)

/-- C8: `any_task_exceeded_max_attempts` returns `(true, t)` for the earliest
task in list order with `status ≠ "completed"` and `attempts ≥ max_attempts`
when one exists, and `(false, none)` when no task qualifies. -/
theorem c8_any_task_exceeded_first (tasks : List Task) :
    ((∀ t ∈ tasks, t.status = "completed" ∨ t.attempts < t.max_attempts) →
      any_task_exceeded_max_attempts tasks = (false, none)) ∧
    (∀ (l1 : List Task) (t : Task) (l2 : List Task),
      tasks = l1 ++ t :: l2 →
      t.status ≠ "completed" → t.max_attempts ≤ t.attempts →
      (∀ u ∈ l1, u.status = "completed" ∨ u.attempts < u.max_attempts) →
      any_task_exceeded_max_attempts tasks = (true, some t)) := by
  constructor
  · intro h
    exact any_exceeded_none tasks fun t ht => exhausted_check_eq_false.mpr (h t ht)
  · intro l1 t l2 htasks hst hat hfront
    subst htasks
    induction l1 with
    | nil =>
      rw [List.nil_append, any_task_exceeded_max_attempts,
        if_pos (exhausted_check_iff.mpr ⟨hst, hat⟩)]
    | cons u l1 ih =>
      rw [List.cons_append, any_task_exceeded_max_attempts]
      rw [exhausted_check_eq_false.mpr (hfront u (List.mem_cons_self u l1))]
      simp only [Bool.false_eq_true, if_false]
      exact ih fun v hv => hfront v (List.mem_cons_of_mem u hv)

/-- A completed task that exhausted its budget, followed by exhausted
incomplete tasks; used to exercise the first-in-order contract. -/
def taskDoneSpent : Task :=
  { id := "T0", title := "Task T0", description := "", status := "completed",
    dependencies := [], attempts := 3, max_attempts := 3, blocked := false }

def taskSpent1 : Task :=
  { id := "T1", title := "Task T1", description := "", status := "pending",
    dependencies := [], attempts := 3, max_attempts := 3, blocked := false }

def taskSpent2 : Task :=
  { id := "T2", title := "Task T2", description := "", status := "in_progress",
    dependencies := [], attempts := 5, max_attempts := 3, blocked := false }

def taskFresh : Task :=
  { id := "T9", title := "Task T9", description := "", status := "pending",
    dependencies := [], attempts := 0, max_attempts := 3, blocked := false }

theorem c8_any_task_exceeded_first_witness :
    any_task_exceeded_max_attempts [taskDoneSpent, taskSpent1, taskSpent2] =
      (true, some taskSpent1) :=
  (c8_any_task_exceeded_first [taskDoneSpent, taskSpent1, taskSpent2]).2
    [taskDoneSpent] taskSpent1 [taskSpent2] rfl (by decide) (by decide) (by decide)

/- ### The Runner's own file-reading checks (`ralph/run.py`) -/

namespace Runner

/-- `Runner._all_tasks_complete` (run.py lines 86-92).  `none` models a
missing `tasks.json`; `some tasks` models the parsed `data.get("tasks", [])`.
The Python body is `bool(tasks) and all(t.get("status") == "completed" ...)`. -/
def all_tasks_complete : Option (List Task) → Bool
  | none => false
  | some tasks => !tasks.isEmpty && tasks.all (fun t => t.status == "completed")

/-- The scan of `Runner._any_task_exceeded_max_attempts` (run.py lines 99-102):
unlike `dag.any_task_exceeded_max_attempts`, the guard tests only
`attempts >= max_attempts` and never looks at the task's status. -/
def exceeded_scan : List Task → Bool × Option Task
  | [] => (false, none)
  | task :: rest =>
    if (task.max_attempts ≤ task.attempts : Bool) then (true, some task)
    else exceeded_scan rest

/-- `Runner._any_task_exceeded_max_attempts` (run.py lines 94-102). -/
def any_task_exceeded_max_attempts : Option (List Task) → Bool × Option Task
  | none => (false, none)
  | some tasks => exceeded_scan tasks

end Runner

/-- C3: the sequential scheduler's exhaustion check does not implement the
`firstExhausted` contract: on a list whose first task is `"completed"` with
`attempts = max_attempts`, followed by a fresh pending task, it reports the
completed task as exhausted (so the sequential loop would terminate with
`TaskExhausted` for it), while the graph evaluator
`dag.any_task_exceeded_max_attempts` correctly reports no exhausted task. -/
theorem c3_runner_check_flags_completed_task :
    Runner.any_task_exceeded_max_attempts (some [taskDoneSpent, taskFresh]) =
      (true, some taskDoneSpent) ∧
    taskDoneSpent.status = "completed" ∧
    any_task_exceeded_max_attempts [taskDoneSpent, taskFresh] = (false, none) := by
  refine ⟨by decide, rfl, by decide⟩

/-- C10: the completion check the sequential scheduler actually uses returns
`false` both on a missing tasks file and on an empty task list, diverging from
the pure evaluator `all_tasks_complete`, which is vacuously true on `[]`. -/
theorem c10_runner_all_tasks_complete :
    Runner.all_tasks_complete none = false ∧
    Runner.all_tasks_complete (some []) = false ∧
    (∀ tasks : List Task, Runner.all_tasks_complete (some tasks) = true ↔
      tasks ≠ [] ∧ all_tasks_complete tasks = true) ∧
    all_tasks_complete [] = true := by
  refine ⟨rfl, rfl, ?_, rfl⟩
  intro tasks
  simp [Runner.all_tasks_complete, all_tasks_complete, List.isEmpty_iff]

/- ### The durable JSON store (`ralph/locks.py`) -/

/-- The on-disk state at one path: the current contents of the file, plus the
contents of a pending same-directory temporary file, when one exists. -/
structure DiskFile where
  contents : String
  tmp : Option String
deriving Repr, DecidableEq

/-- Outcome of one `locked_json_rw` call: normal completion, a `json.load`
failure while reading under the lock, or an exception raised by the caller's
`with`-block body (the mutator), which the context manager re-raises. -/
inductive RwOutcome (E : Type) where
  | ok
  | parseFailed
  | fnRaised (e : E)
deriving Repr, DecidableEq

/-- `locks.locked_json_rw` (locks.py lines 20-64) acting on the document at
one path.  `parse` and `dump` stand for `json.load` and `json.dump`; the
mutator `fn` models the body of the caller's `with` block, either returning
the mutated document or raising `e`.  On normal return of the mutator, the
dump is written to a fresh temporary file which `os.replace` then atomically
renames over the path (so no temporary file remains); on an exception from
the mutator, the write phase is never entered, the disk state is left exactly
as it was, and the exception propagates. -/
def locked_json_rw {E D : Type} (parse : String → Option D) (dump : D → String)
    (fn : D → Except E D) (disk : DiskFile) : RwOutcome E × DiskFile :=
  match parse disk.contents with
  | none => (RwOutcome.parseFailed, disk)
  | some data =>
    match fn data with
    | Except.error e => (RwOutcome.fnRaised e, disk)
    | Except.ok data2 => (RwOutcome.ok, { contents := dump data2, tmp := none })

/-- C2: if the mutator raises inside `locked_json_rw`, the on-disk state at
the path (contents and absence of any replacing temporary content) is exactly
what it was before the call, and the exception propagates to the caller. -/
theorem c2_locked_json_rw_exception_safe {E D : Type}
    (parse : String → Option D) (dump : D → String) (fn : D → Except E D)
    (disk : DiskFile) (d : D) (e : E)
    (hparse : parse disk.contents = some d) (hfn : fn d = Except.error e) :
    locked_json_rw parse dump fn disk = (RwOutcome.fnRaised e, disk) := by
  simp only [locked_json_rw, hparse, hfn]

theorem c2_locked_json_rw_exception_safe_witness :
    locked_json_rw (fun s => some s.length) (fun n => toString n)
      (fun _ => (Except.error "boom" : Except String Nat))
      { contents := "{}", tmp := none } =
    (RwOutcome.fnRaised "boom", { contents := "{}", tmp := none }) :=
  c2_locked_json_rw_exception_safe (fun s => some s.length) (fun n => toString n)
    (fun _ => Except.error "boom") { contents := "{}", tmp := none } 2 "boom" rfl rfl

/- ### Async scheduler state updates (`Runner.run_execute_loop_async`) -/

/-- An entry of `obstacles.json` (run.py lines 224-234). -/
structure Obstacle where
  id : String
  task_id : String
  message : String
  resolved : Bool
deriving Repr, DecidableEq

/-- An entry of the run-state log `state.json` (run.py lines 211-219). -/
structure StateEntry where
  task_id : String
  status : String
  summary : String
  files_modified : List String
  obstacles : List String
deriving Repr, DecidableEq

/-- The locked task-status update pattern of run.py (lines 205-209 and
235-239): scan `data["tasks"]`, set `status` on the first task with the given
id, then `break`. -/
def set_status_first : List Task → String → String → List Task
  | [], _, _ => []
  | t :: rest, task_id, new_status =>
    if t.id == task_id then { t with status := new_status } :: rest
    else t :: set_status_first rest task_id new_status

/-- The locked dispatch update of run.py lines 269-274: the first task with
the given id gets `status = "in_progress"` and `attempts += 1`, then `break`. -/
def dispatch_update : List Task → String → List Task
  | [], _ => []
  | t :: rest, task_id =>
    if t.id == task_id then
      { t with status := "in_progress", attempts := t.attempts + 1 } :: rest
    else t :: dispatch_update rest task_id

/-- Reconciliation of one finished worker (run.py lines 195-244).  The worker
future either produced an exit code or raised (`Except.error`), which the
scheduler treats as exit code 1.  Code 0 marks the task completed and appends
a run-state entry; any other code appends an Obstacle whose sequential id is
computed from the very obstacles list the append goes to (both inside one
locked read-modify-write of `obstacles.json`) and resets the task to pending. -/
def reconcile_finished (task_id : String) (result : Except String Int)
    (tasks : List Task) (state_log : List StateEntry)
    (obstacles : List Obstacle) :
    List Task × List StateEntry × List Obstacle :=
  let returncode : Int := match result with
    | Except.ok rc => rc
    | Except.error _ => 1
  if returncode == 0 then
    (set_status_first tasks task_id "completed",
     state_log ++ [{ task_id := task_id, status := "completed", summary := "",
                     files_modified := [], obstacles := [] }],
     obstacles)
  else
    (set_status_first tasks task_id "pending",
     state_log,
     obstacles ++ [{ id := "O" ++ toString (obstacles.length + 1),
                     task_id := task_id,
                     message := "Agent for task " ++ task_id ++
                       " failed with returncode " ++ toString returncode ++ ".",
                     resolved := false }])

/- ### Structure lemmas for the locked updates -/

theorem set_status_first_map_attempts (tasks : List Task)
    (task_id new_status : String) :
    (set_status_first tasks task_id new_status).map Task.attempts =
      tasks.map Task.attempts := by
  induction tasks with
  | nil => rfl
  | cons t rest ih =>
    rw [set_status_first]
    by_cases h : t.id == task_id
    · rw [if_pos h]; rfl
    · rw [if_neg h, List.map_cons, List.map_cons, ih]

theorem set_status_first_mem {tasks : List Task} {task_id new_status : String}
    {u : Task} (hu : u ∈ set_status_first tasks task_id new_status) :
    u ∈ tasks ∨ ∃ t ∈ tasks, t.id = task_id ∧ u = { t with status := new_status } := by
  induction tasks with
  | nil => exact absurd hu (List.not_mem_nil u)
  | cons t rest ih =>
    rw [set_status_first] at hu
    by_cases h : t.id == task_id
    · rw [if_pos h] at hu
      rcases List.mem_cons.mp hu with h1 | h1
      · exact Or.inr ⟨t, List.mem_cons_self t rest, by simpa using h, h1⟩
      · exact Or.inl (List.mem_cons_of_mem t h1)
    · rw [if_neg h] at hu
      rcases List.mem_cons.mp hu with h1 | h1
      · exact Or.inl (h1 ▸ List.mem_cons_self t rest)
      · rcases ih h1 with h2 | ⟨v, hv, hvid, hvu⟩
        · exact Or.inl (List.mem_cons_of_mem t h2)
        · exact Or.inr ⟨v, List.mem_cons_of_mem t hv, hvid, hvu⟩

theorem set_status_first_break (task_id new_status : String) :
    ∀ (l1 : List Task) (t : Task) (l2 : List Task), t.id = task_id →
      (∀ u ∈ l1, u.id ≠ task_id) →
      set_status_first (l1 ++ t :: l2) task_id new_status =
        l1 ++ { t with status := new_status } :: l2 := by
  intro l1 t l2 ht hfront
  induction l1 with
  | nil => rw [List.nil_append, List.nil_append, set_status_first,
      if_pos (beq_iff_eq.mpr ht)]
  | cons u l1 ih =>
    rw [List.cons_append, List.cons_append, set_status_first,
      if_neg (by simpa using hfront u (List.mem_cons_self u l1))]
    rw [ih fun v hv => hfront v (List.mem_cons_of_mem u hv)]

theorem dispatch_update_mem {tasks : List Task} {task_id : String} {u : Task}
    (hu : u ∈ dispatch_update tasks task_id) :
    u ∈ tasks ∨ ∃ t ∈ tasks, t.id = task_id ∧
      u = { t with status := "in_progress", attempts := t.attempts + 1 } := by
  induction tasks with
  | nil => exact absurd hu (List.not_mem_nil u)
  | cons t rest ih =>
    rw [dispatch_update] at hu
    by_cases h : t.id == task_id
    · rw [if_pos h] at hu
      rcases List.mem_cons.mp hu with h1 | h1
      · exact Or.inr ⟨t, List.mem_cons_self t rest, by simpa using h, h1⟩
      · exact Or.inl (List.mem_cons_of_mem t h1)
    · rw [if_neg h] at hu
      rcases List.mem_cons.mp hu with h1 | h1
      · exact Or.inl (h1 ▸ List.mem_cons_self t rest)
      · rcases ih h1 with h2 | ⟨v, hv, hvid, hvu⟩
        · exact Or.inl (List.mem_cons_of_mem t h2)
        · exact Or.inr ⟨v, List.mem_cons_of_mem t hv, hvid, hvu⟩

/-- C5: whenever a finished worker is reconciled as a failure (non-zero exit
code, or a worker exception treated as exit code 1), the scheduler appends an
Obstacle whose id is the fresh sequential `"O<n+1>"` with `n` the number of
obstacles in the very list the append goes to (both computed inside the same
locked read-modify-write) and whose resolved flag is false, and resets the
task's status to `"pending"`: attempts are untouched for every task, and the
first task carrying the reconciled id — and only it — changes status. -/
theorem c5_failure_reconciliation (task_id : String) (result : Except String Int)
    (tasks : List Task) (state_log : List StateEntry) (obstacles : List Obstacle)
    (hfail : (match result with
      | Except.ok rc => rc
      | Except.error _ => 1) ≠ 0) :
    reconcile_finished task_id result tasks state_log obstacles =
      (set_status_first tasks task_id "pending", state_log,
       obstacles ++ [{ id := "O" ++ toString (obstacles.length + 1),
                       task_id := task_id,
                       message := "Agent for task " ++ task_id ++
                         " failed with returncode " ++
                         toString (match result with
                           | Except.ok rc => rc
                           | Except.error _ => 1) ++ ".",
                       resolved := false }]) ∧
    (set_status_first tasks task_id "pending").map Task.attempts =
      tasks.map Task.attempts ∧
    ∀ (l1 : List Task) (t : Task) (l2 : List Task), tasks = l1 ++ t :: l2 →
      t.id = task_id → (∀ u ∈ l1, u.id ≠ task_id) →
      set_status_first tasks task_id "pending" =
        l1 ++ { t with status := "pending" } :: l2 := by
  refine ⟨?_, set_status_first_map_attempts tasks task_id "pending", ?_⟩
  · simp only [reconcile_finished]
    rw [if_neg (by simpa using hfail)]
  · intro l1 t l2 h ht hfront
    subst h
    exact set_status_first_break task_id "pending" l1 t l2 ht hfront

theorem c5_failure_reconciliation_witness :
    reconcile_finished "T9" (Except.error "worker crash") [taskFresh] [] [] =
      (set_status_first [taskFresh] "T9" "pending", [],
       [{ id := "O" ++ toString (0 + 1), task_id := "T9",
          message := "Agent for task T9 failed with returncode " ++
            toString (1 : Int) ++ ".",
          resolved := false }]) :=
  (c5_failure_reconciliation "T9" (Except.error "worker crash") [taskFresh] [] []
    (by decide)).1

/-- C6: the async scheduler's task-list updates preserve
`attempts ≤ max_attempts`.  The dispatch step increments attempts by one, only
for a task of the ready set (whose readiness requires
`attempts < max_attempts`); the reconciliation updates rewrite a status and
leave every attempts counter unchanged. -/
theorem c6_attempts_bound_preserved (tasks : List Task) (task : Task)
    (task_id new_status : String)
    (hids : (tasks.map Task.id).Nodup)
    (hready : task ∈ get_ready_tasks tasks)
    (hinv : ∀ t ∈ tasks, t.attempts ≤ t.max_attempts) :
    (∀ u ∈ dispatch_update tasks task.id, u.attempts ≤ u.max_attempts) ∧
    (set_status_first tasks task_id new_status).map Task.attempts =
      tasks.map Task.attempts ∧
    (∀ u ∈ set_status_first tasks task_id new_status,
      u.attempts ≤ u.max_attempts) := by
  obtain ⟨htmem, hstat, hblock, hatt, hdeps⟩ := mem_get_ready_tasks.mp hready
  refine ⟨?_, set_status_first_map_attempts tasks task_id new_status, ?_⟩
  · intro u hu
    rcases dispatch_update_mem hu with h | ⟨t, ht, htid, hut⟩
    · exact hinv u h
    · have hteq : t = task := List.inj_on_of_nodup_map hids ht htmem htid
      subst hteq
      subst hut
      simpa using hatt
  · intro u hu
    rcases set_status_first_mem hu with h | ⟨t, ht, _, hut⟩
    · exact hinv u h
    · subst hut
      simpa using hinv t ht

theorem c6_attempts_bound_preserved_witness :
    (∀ u ∈ dispatch_update [taskFresh] taskFresh.id,
      u.attempts ≤ u.max_attempts) ∧
    (set_status_first [taskFresh] "T9" "completed").map Task.attempts =
      [taskFresh].map Task.attempts ∧
    (∀ u ∈ set_status_first [taskFresh] "T9" "completed",
      u.attempts ≤ u.max_attempts) :=
  c6_attempts_bound_preserved [taskFresh] taskFresh "T9" "completed"
    (by decide) (by decide) (by decide)

/-- Marking the task at index `i` of the list as completed: the status change
C7 quantifies over.  Out-of-range indices leave the list unchanged. -/
def complete_at (tasks : List Task) (i : Nat) : List Task :=
  match tasks[i]? with
  | none => tasks
  | some t => tasks.set i { t with status := "completed" }

/-- C7 counterexample: completing a task that was itself ready removes it
from the ready set, so `get_ready_tasks` is not monotone under completing an
arbitrary task: a fresh pending task alone in the list is ready, and after
`complete_at` the ready set is empty — it shrank. -/
theorem c7_counterexample :
    taskFresh ∈ get_ready_tasks [taskFresh] ∧
    get_ready_tasks (complete_at [taskFresh] 0) = [] ∧
    (get_ready_tasks (complete_at [taskFresh] 0)).length <
      (get_ready_tasks [taskFresh]).length := by
  refine ⟨by decide, by decide, by decide⟩

/-- C7 (amended): completing one task never removes any *other* task from the
ready set — every ready task other than the one modified is still ready after
`complete_at`; only the modified task itself may leave the set. -/
theorem c7_ready_monotone_other_tasks (tasks : List Task) (i : Nat)
    (hi : i < tasks.length) (u : Task)
    (hu : u ∈ get_ready_tasks tasks) (hne : u ≠ tasks[i]) :
    u ∈ get_ready_tasks (complete_at tasks i) := by
  obtain ⟨humem, hstat, hblock, hatt, hdeps⟩ := mem_get_ready_tasks.mp hu
  have hca : complete_at tasks i =
      tasks.set i { tasks[i] with status := "completed" } := by
    rw [complete_at, List.getElem?_eq_getElem hi]
  rw [mem_get_ready_tasks, hca]
  refine ⟨?_, hstat, hblock, hatt, ?_⟩
  · obtain ⟨j, hj, hju⟩ := List.mem_iff_getElem.mp humem
    have hji : i ≠ j := by
      rintro rfl
      exact hne (hju ▸ rfl)
    refine List.mem_iff_getElem.mpr ⟨j, by simpa using hj, ?_⟩
    rw [List.getElem_set_ne hji _]
    exact hju
  · intro dep hdep
    obtain ⟨v, hv, hvs, hvid⟩ := hdeps dep hdep
    obtain ⟨k, hk, hkv⟩ := List.mem_iff_getElem.mp hv
    by_cases hki : i = k
    · subst hki
      refine ⟨{ tasks[i] with status := "completed" }, ?_, rfl, ?_⟩
      · refine List.mem_iff_getElem.mpr ⟨i, by simpa using hi, ?_⟩
        exact List.getElem_set_self ..
      · have : tasks[i] = v := hkv
        rw [show ({ tasks[i] with status := "completed" } : Task).id =
          (tasks[i]).id from rfl, this, hvid]
    · refine ⟨v, ?_, hvs, hvid⟩
      refine List.mem_iff_getElem.mpr ⟨k, by simpa using hk, ?_⟩
      rw [List.getElem_set_ne hki _]
      exact hkv

/-- A second independent fresh pending task, distinct from `taskFresh`. -/
def taskFreshB : Task :=
  { id := "T8", title := "Task T8", description := "", status := "pending",
    dependencies := [], attempts := 0, max_attempts := 3, blocked := false }

theorem c7_ready_monotone_other_tasks_witness :
    taskFreshB ∈ get_ready_tasks (complete_at [taskFresh, taskFreshB] 0) :=
  c7_ready_monotone_other_tasks [taskFresh, taskFreshB] 0 (by decide) taskFreshB
    (by decide) (by decide)

/- ### The sequential scheduler loop (`Runner.run_execute_loop`) -/

namespace Runner

/-- The observable effect of one agent invocation in the sequential loop
(run.py line 309): whether the returned stdout contains the literal
usage-limit marker, and the contents of `tasks.json` after the agent ran
(the agent is what mutates the tasks file). -/
structure AgentStep where
  usage_limit_hit : Bool
  tasks_after : Option (List Task)

/-- Observable outcome of one sequential run: the reasons passed to
`_run_summarise`, in order, and whether the run died on an uncaught name
error instead of terminating normally. -/
structure SeqRun where
  summarise_calls : List String
  name_error_crash : Bool
deriving Repr, DecidableEq

/-- The `for iteration in range(1, max_iterations + 1)` loop of
`Runner.run_execute_loop` (run.py lines 305-330), recursing on the number of
remaining iterations.  `task_var` models the Python local `task`: `none`
while still unbound, `some none` after `_any_task_exceeded_max_attempts`
returned `(False, None)`, `some (some t)` once bound to a task.  The spawn
message at line 308 reads `task["id"]` and `task["title"]` before the agent
is invoked, which raises — UnboundLocalError on the first iteration, or
TypeError when `task` is bound to `None` — and a crash ends the run with no
summarise call.  Each break returns its exit reason; falling out of the loop
returns the default iteration-limit reason (the `for`/`else` at lines
326-328); either way `_run_summarise` then runs once with that reason. -/
def seq_loop (agents : Nat → AgentStep) :
    Nat → Nat → Option (List Task) → Option (Option Task) → String → SeqRun
  | 0, _, _, _, default_reason =>
    { summarise_calls := [default_reason], name_error_crash := false }
  | remaining + 1, iteration, _, task_var, default_reason =>
    match task_var with
    | some (some _) =>
      let step := agents iteration
      if step.usage_limit_hit then
        { summarise_calls := ["Claude Code usage limit has been reached."],
          name_error_crash := false }
      else if all_tasks_complete step.tasks_after then
        { summarise_calls := ["All tasks completed successfully."],
          name_error_crash := false }
      else
        match any_task_exceeded_max_attempts step.tasks_after with
        | (true, some t) =>
          { summarise_calls :=
              ["Task " ++ t.id ++ " ('" ++ t.title ++
               "') reached max_attempts (" ++ toString t.max_attempts ++ ")."],
            name_error_crash := false }
        | (true, none) =>
          { summarise_calls := [], name_error_crash := true }
        | (false, t) =>
          seq_loop agents remaining (iteration + 1) (agents iteration).tasks_after
            (some t) default_reason
    | _ => { summarise_calls := [], name_error_crash := true }

/-- The sequential variant of `Runner.run_execute_loop` (run.py lines
290-330): pre-check `_all_tasks_complete` and summarise immediately when it
already holds, otherwise enter the iteration loop with the local `task`
unbound and the iteration-limit string as the default exit reason. -/
def run_execute_loop (tasks_file : Option (List Task))
    (agents : Nat → AgentStep) (max_iterations : Nat) : SeqRun :=
  if all_tasks_complete tasks_file then
    { summarise_calls := ["All tasks completed successfully."],
      name_error_crash := false }
  else
    seq_loop agents max_iterations 1 tasks_file none
      ("Reached maximum iteration limit (" ++ toString max_iterations ++ ").")

end Runner

/-- C4: the sequential scheduler does not invoke the summarize hook exactly
once on every termination path.  Whenever the pre-check fails (here: one
fresh pending task) and at least one iteration is to run, the spawn message
of the first iteration reads the loop-local `task` before any assignment
(run.py line 308), so the run dies before the first agent invocation —
regardless of the agent's behaviour — and `_run_summarise` is called zero
times; in particular the iteration-limit reason is never recorded. -/
theorem c4_sequential_loop_crashes_without_summarise
    (agents : Nat → Runner.AgentStep) (m : Nat) :
    Runner.run_execute_loop (some [taskFresh]) agents (m + 1) =
      { summarise_calls := [], name_error_crash := true } := rfl

end Ralph
